import Mathlib

/-!
Verification of the zForms event batching and delivery subsystem.

The development shallowly embeds the two core classes of the tracking
script — `EventQueue` (src/queue.ts) and `Storage` (src/storage.ts) —
as pure state-transition functions.  The browser environment is made
explicit: the network outcome of a fetch is a boolean oracle argument
(`ok`: 2xx response vs. non-2xx / exception), and the acceptance signal
of `navigator.sendBeacon` is a boolean argument (`accepted`).  The
asynchronous `send` is split in two phases, `sendStart` (everything
before `await fetch`) and `sendFinish` (the continuation: catch and
finally blocks), so that states with a request in flight are
first-class; `send` composes the phases, which is the behaviour when no
other callback interleaves with the await.
-/

/-- EventType from src/types.ts. -/
inductive EventType where
  | focus | blur | submit | abandon | error | change | interaction
deriving Repr, DecidableEq

/-- Optional metadata map carried by an event (src/types.ts). -/
structure EventMetadata where
  interaction_count : Option Nat := none
  field_completed : Option Bool := none
  validation_errors : Option Nat := none
  field_position : Option Nat := none
  total_fields : Option Nat := none
  abandonment_field : Option String := none
deriving Repr, DecidableEq

/-- zFormsEvent from src/types.ts: one observed form interaction. -/
structure zFormsEvent where
  form_id : String
  field_id : String
  event_type : EventType
  time_spent_ms : Option Nat := none
  session_id : String
  timestamp : String
  metadata : Option EventMetadata := none
deriving Repr, DecidableEq

/-- EventBatch from src/types.ts: the wire payload of one POST request. -/
structure EventBatch where
  project_key : String
  events : List zFormsEvent
deriving Repr, DecidableEq

/-- STORAGE_KEY is fixed; the persisted blob is modelled as the parsed list. -/
def MAX_STORED_EVENTS : Nat := 1000

/-- State of the Storage handler (src/storage.ts): the availability flag
probed at construction, and the JSON array currently persisted under the
storage key (empty list when the key is absent). -/
structure StorageState where
  isAvailable : Bool
  data : List zFormsEvent
deriving Repr, DecidableEq

/-- JavaScript `array.slice(-n)`: the last `n` elements (all of them when
the array is shorter). -/
def sliceLast (n : Nat) (l : List zFormsEvent) : List zFormsEvent :=
  l.drop (l.length - n)

/-- Storage.retrieve: the persisted sequence, or empty when storage is
unavailable (the catch branch, malformed data, is absorbed into the empty
case). -/
def Storage.retrieve (st : StorageState) : List zFormsEvent :=
  if st.isAvailable then st.data else []

/-- Storage.store: appends `events` to the persisted sequence and trims to
the last MAX_STORED_EVENTS elements; no-op when unavailable or when
`events` is empty. -/
def Storage.store (st : StorageState) (events : List zFormsEvent) : StorageState :=
  if !st.isAvailable || events.isEmpty then st
  else { st with data := sliceLast MAX_STORED_EVENTS (Storage.retrieve st ++ events) }

/-- Storage.clear: removes the persisted blob; no-op when unavailable. -/
def Storage.clear (st : StorageState) : StorageState :=
  if st.isAvailable then { st with data := [] } else st

/-- State of the EventQueue class (src/queue.ts).  `sendTimer` records
whether the repeating batch timer is armed (non-null), `isSending` is the
in-flight flag. -/
structure EventQueue where
  queue : List zFormsEvent
  storage : StorageState
  apiUrl : String
  projectKey : String
  batchSize : Nat
  batchInterval : Nat
  sendTimer : Bool
  isSending : Bool
  debug : Bool
deriving Repr, DecidableEq

namespace EventQueue

/-- loadStoredEvents: pushes the retrieved events onto the (still empty at
construction time) queue and clears the store, when anything was stored. -/
def loadStoredEvents (s : EventQueue) : EventQueue :=
  let stored := Storage.retrieve s.storage
  if 0 < stored.length then
    { s with queue := s.queue ++ stored, storage := Storage.clear s.storage }
  else s

/-- The EventQueue constructor: fields are initialised, stored events from
the previous session are loaded, and startBatchTimer arms the repeating
timer.  The unload handlers are modelled by calling `sendBeacon` directly
where a lifecycle signal fires. -/
def construct (apiUrl projectKey : String) (batchSize batchInterval : Nat)
    (debug : Bool) (storage : StorageState) : EventQueue :=
  let s0 : EventQueue :=
    { queue := [], storage := storage, apiUrl := apiUrl,
      projectKey := projectKey, batchSize := batchSize,
      batchInterval := batchInterval, sendTimer := false,
      isSending := false, debug := debug }
  let s1 := loadStoredEvents s0
  { s1 with sendTimer := true }

/-- First phase of `send`, up to the `await fetch`: the in-flight / empty
guard, setting `isSending`, splicing the first `batchSize` events off the
queue and forming the payload.  Returns the new state and the request put
on the wire (`none` when the guard returned early). -/
def sendStart (s : EventQueue) : EventQueue × Option EventBatch :=
  if s.isSending || s.queue.isEmpty then (s, none)
  else
    ({ s with isSending := true, queue := s.queue.drop s.batchSize },
     some { project_key := s.projectKey, events := s.queue.take s.batchSize })

/-- Second phase of `send`: the continuation after the fetch settles.
`ok` is true for a 2xx response; on a non-2xx status or a network
exception the catch block stores the batch for retry and unshifts it back
onto the front of the queue; the finally block clears `isSending` in
either case. -/
def sendFinish (s : EventQueue) (batch : List zFormsEvent) (ok : Bool) : EventQueue :=
  if ok then { s with isSending := false }
  else
    { s with storage := Storage.store s.storage batch,
             queue := batch ++ s.queue,
             isSending := false }

/-- A whole send cycle with no interleaved callback during the await:
`sendStart` followed, when a request was issued, by `sendFinish` on its
events with network outcome `ok`. -/
def send (s : EventQueue) (ok : Bool) : EventQueue × Option EventBatch :=
  match sendStart s with
  | (s1, none) => (s1, none)
  | (s1, some payload) => (sendFinish s1 payload.events ok, some payload)

/-- add: pushes the event onto the queue tail and triggers a send cycle
when the queue length has reached `batchSize`. -/
def add (s : EventQueue) (e : zFormsEvent) (ok : Bool) : EventQueue × Option EventBatch :=
  let s1 : EventQueue := { s with queue := s.queue ++ [e] }
  if s.batchSize ≤ s1.queue.length then send s1 ok else (s1, none)

/-- sendBeacon: the emergency delivery path used by the unload handlers.
Early return on an empty queue; otherwise the whole queue is handed to
`navigator.sendBeacon`, whose acceptance signal is `accepted`.  On
acceptance the queue is emptied; on rejection the queue is stored for the
next session (and left in memory).  The second component is the blob
submitted to the beacon primitive, `none` when nothing was submitted. -/
def sendBeacon (s : EventQueue) (accepted : Bool) : EventQueue × Option EventBatch :=
  if s.queue.isEmpty then (s, none)
  else
    let payload : EventBatch := { project_key := s.projectKey, events := s.queue }
    if accepted then ({ s with queue := [] }, some payload)
    else ({ s with storage := Storage.store s.storage s.queue }, some payload)

/-- flush: forces a send cycle when the queue is non-empty. -/
def flush (s : EventQueue) (ok : Bool) : EventQueue × Option EventBatch :=
  if s.queue.isEmpty then (s, none) else send s ok

/-- destroy: clears the interval timer and flushes. -/
def destroy (s : EventQueue) (ok : Bool) : EventQueue × Option EventBatch :=
  let s1 : EventQueue := { s with sendTimer := false }
  flush s1 ok

end EventQueue

/-- Drives a sequence of producer calls to `add`, with every triggered
send cycle completing successfully before the next call (the no-failure
scenario); collects the request payloads in order. -/
def runAdds (s : EventQueue) : List zFormsEvent → EventQueue × List EventBatch
  | [] => (s, [])
  | e :: rest =>
    let step := EventQueue.add s e true
    let r := runAdds step.1 rest
    (r.1, step.2.toList ++ r.2)

/-- A sample event used by concrete witnesses. -/
def evA : zFormsEvent :=
  { form_id := "f1", field_id := "a", event_type := EventType.focus,
    session_id := "s1", timestamp := "2025-01-01T00:00:00Z" }

/-- A second sample event. -/
def evB : zFormsEvent :=
  { form_id := "f1", field_id := "b", event_type := EventType.blur,
    session_id := "s1", timestamp := "2025-01-01T00:00:01Z" }

/-- A third sample event. -/
def evC : zFormsEvent :=
  { form_id := "f1", field_id := "c", event_type := EventType.submit,
    session_id := "s1", timestamp := "2025-01-01T00:00:02Z" }

/-- An available, empty storage. -/
def stEmpty : StorageState := { isAvailable := true, data := [] }

/-- State used by witnesses: one buffered event, batch size 2. -/
def sW : EventQueue :=
  { queue := [evA], storage := stEmpty, apiUrl := "u", projectKey := "pk",
    batchSize := 2, batchInterval := 5000, sendTimer := true,
    isSending := false, debug := false }

/-- State used by witnesses: three buffered events, batch size 2. -/
def sFull : EventQueue :=
  { queue := [evA, evB, evC], storage := stEmpty, apiUrl := "u", projectKey := "pk",
    batchSize := 2, batchInterval := 5000, sendTimer := true,
    isSending := false, debug := false }

/-- State used by witnesses: a request already in flight. -/
def sInFlight : EventQueue :=
  { queue := [evB], storage := stEmpty, apiUrl := "u", projectKey := "pk",
    batchSize := 2, batchInterval := 5000, sendTimer := true,
    isSending := true, debug := false }

/-- The complete no-failure delivery trace of a fresh EventQueue: every
event is enqueued through `add` with each triggered cycle succeeding,
then one final forced cycle (timer tick / flush) drains the remainder.
Returns the ordered list of request payloads the endpoint receives. -/
def deliveredBatches (url pk : String) (B I : Nat) (dbg : Bool)
    (events : List zFormsEvent) : List EventBatch :=
  let s0 := EventQueue.construct url pk B I dbg { isAvailable := true, data := [] }
  let r := runAdds s0 events
  r.2 ++ (EventQueue.flush r.1 true).2.toList

/-! Helper lemmas about one send cycle. -/

theorem send_noop (s : EventQueue) (ok : Bool)
    (h : s.isSending = true ∨ s.queue = []) :
    EventQueue.send s ok = (s, none) := by
  rcases h with h | h <;>
    simp [EventQueue.send, EventQueue.sendStart, h]

theorem send_success (s : EventQueue)
    (h1 : s.isSending = false) (h2 : s.queue ≠ []) :
    EventQueue.send s true =
      ({ s with queue := s.queue.drop s.batchSize, isSending := false },
       some { project_key := s.projectKey, events := s.queue.take s.batchSize }) := by
  simp [EventQueue.send, EventQueue.sendStart, EventQueue.sendFinish, h1, h2]

theorem send_failure (s : EventQueue)
    (h1 : s.isSending = false) (h2 : s.queue ≠ []) :
    EventQueue.send s false =
      ({ s with queue := s.queue.take s.batchSize ++ s.queue.drop s.batchSize,
                storage := Storage.store s.storage (s.queue.take s.batchSize),
                isSending := false },
       some { project_key := s.projectKey, events := s.queue.take s.batchSize }) := by
  simp [EventQueue.send, EventQueue.sendStart, EventQueue.sendFinish, h1, h2]

/-- Claim C2: at most one send cycle is ever in flight.  An invocation of
the send cycle while the in-flight flag is set, or while the queue is
empty, is a no-op: it changes neither the queue nor the store and issues
no request.  The continuation of a cycle that did run (`sendFinish`, the
finally block) clears the in-flight flag whether the fetch succeeded or
failed, so a cycle entered with the flag clear always ends with it clear. -/
theorem send_at_most_one_in_flight (s : EventQueue) (ok : Bool)
    (batch : List zFormsEvent) :
    ((s.isSending = true ∨ s.queue = []) → EventQueue.send s ok = (s, none)) ∧
    (EventQueue.sendFinish s batch ok).isSending = false ∧
    (s.isSending = false → ((EventQueue.send s ok).1).isSending = false) := by
  refine ⟨send_noop s ok, ?_, ?_⟩
  · cases ok <;> simp [EventQueue.sendFinish]
  · intro h1
    by_cases h2 : s.queue = []
    · rw [send_noop s ok (Or.inr h2)]
      exact h1
    · cases ok
      · rw [send_failure s h1 h2]
      · rw [send_success s h1 h2]

/-- Claim C2 witness: a cycle triggered while a request is outstanding is
a no-op at a concrete in-flight state. -/
theorem send_at_most_one_in_flight_witness :
    EventQueue.send sInFlight true = (sInFlight, none) ∧
    (EventQueue.sendFinish sInFlight [] true).isSending = false :=
  ⟨(send_at_most_one_in_flight sInFlight true []).1 (Or.inl rfl),
   (send_at_most_one_in_flight sInFlight true []).2.1⟩

/-- Claim C6: on an available store, `store(events)` persists exactly the
last MAX_STORED_EVENTS (1000) elements of the previously persisted
sequence followed by the new events; hence the store never holds more
than 1000 events, and what is evicted is an oldest-first front segment of
the combined sequence. -/
theorem store_append_cap (st : StorageState) (events : List zFormsEvent)
    (hav : st.isAvailable = true) (hlen : st.data.length ≤ MAX_STORED_EVENTS) :
    (Storage.store st events).data = sliceLast MAX_STORED_EVENTS (st.data ++ events) ∧
    (Storage.store st events).data.length ≤ MAX_STORED_EVENTS ∧
    ∃ dropped, dropped ++ (Storage.store st events).data = st.data ++ events := by
  have hmain : (Storage.store st events).data
      = sliceLast MAX_STORED_EVENTS (st.data ++ events) := by
    by_cases hev : events = []
    · subst hev
      simp [Storage.store, sliceLast, hav, Nat.sub_eq_zero_of_le hlen]
    · simp [Storage.store, Storage.retrieve, hav, hev]
  refine ⟨hmain, ?_, ?_⟩
  · rw [hmain]
    simp only [sliceLast, List.length_drop]
    omega
  · refine ⟨(st.data ++ events).take ((st.data ++ events).length - MAX_STORED_EVENTS), ?_⟩
    rw [hmain]
    exact List.take_append_drop _ _

/-- Claim C6 witness: storing one more event on an available store holding
one event yields both, in order. -/
theorem store_append_cap_witness :
    (Storage.store { isAvailable := true, data := [evA] } [evB]).data
      = sliceLast MAX_STORED_EVENTS ([evA] ++ [evB]) :=
  (store_append_cap { isAvailable := true, data := [evA] } [evB] rfl (by decide)).1

/-- Claim C7: emergency delivery is idempotent across repeated lifecycle
signals.  A successful emergency send submits the whole queue as one
payload and empties the Pending Queue; an emergency send on an empty
queue submits nothing and changes nothing; hence of two back-to-back
hidden signals after a success, only the first produces an outbound
payload. -/
theorem beacon_idempotent (s : EventQueue) (acc2 : Bool) (h : s.queue ≠ []) :
    (EventQueue.sendBeacon s true).1.queue = [] ∧
    (EventQueue.sendBeacon s true).2
      = some { project_key := s.projectKey, events := s.queue } ∧
    EventQueue.sendBeacon (EventQueue.sendBeacon s true).1 acc2
      = ((EventQueue.sendBeacon s true).1, none) ∧
    (∀ t : EventQueue, t.queue = [] → ∀ a : Bool, EventQueue.sendBeacon t a = (t, none)) := by
  have hrun : EventQueue.sendBeacon s true
      = ({ s with queue := [] }, some { project_key := s.projectKey, events := s.queue }) := by
    simp [EventQueue.sendBeacon, h]
  refine ⟨by rw [hrun], by rw [hrun], ?_, ?_⟩
  · rw [hrun]
    simp [EventQueue.sendBeacon]
  · intro t ht a
    simp [EventQueue.sendBeacon, ht]

/-- Claim C7 witness: after a successful emergency send at a concrete
state, a second immediate signal transmits nothing. -/
theorem beacon_idempotent_witness :
    (EventQueue.sendBeacon sFull true).1.queue = [] ∧
    EventQueue.sendBeacon (EventQueue.sendBeacon sFull true).1 true
      = ((EventQueue.sendBeacon sFull true).1, none) :=
  ⟨(beacon_idempotent sFull true (by decide)).1,
   (beacon_idempotent sFull true (by decide)).2.2.1⟩

/-- Claim C8: when the beacon primitive rejects the submission, the
entire attempted batch (the whole queue) is handed to the Durable Store
synchronously; on an available store with room it is appended in full,
and on an unavailable store the hand-off is a no-op (the persisted state
is untouched and no error is raised — the model has no failure outcome). -/
theorem beacon_rejected_stores (s : EventQueue) (h : s.queue ≠ []) :
    (EventQueue.sendBeacon s false).1.storage = Storage.store s.storage s.queue ∧
    (EventQueue.sendBeacon s false).1.queue = s.queue ∧
    (s.storage.isAvailable = true →
      s.storage.data.length + s.queue.length ≤ MAX_STORED_EVENTS →
      (EventQueue.sendBeacon s false).1.storage.data = s.storage.data ++ s.queue) ∧
    (s.storage.isAvailable = false →
      (EventQueue.sendBeacon s false).1.storage = s.storage) := by
  have hrun : EventQueue.sendBeacon s false
      = ({ s with storage := Storage.store s.storage s.queue },
         some { project_key := s.projectKey, events := s.queue }) := by
    simp [EventQueue.sendBeacon, h]
  refine ⟨by rw [hrun], by rw [hrun], ?_, ?_⟩
  · intro hav hcap
    rw [hrun]
    simp only [Storage.store, Storage.retrieve, hav]
    have : ¬(s.queue.isEmpty = true) := by simpa [List.isEmpty_iff] using h
    simp only [Bool.not_true, Bool.false_or, this, if_false]
    simp only [sliceLast, List.length_append]
    rw [Nat.sub_eq_zero_of_le (by simpa [List.length_append] using hcap)]
    rfl
  · intro hun
    rw [hrun]
    simp [Storage.store, hun]

/-- Claim C8 witness: a rejected beacon at a concrete state persists the
whole queue. -/
theorem beacon_rejected_stores_witness :
    (EventQueue.sendBeacon sFull false).1.storage.data = [] ++ [evA, evB, evC] :=
  (beacon_rejected_stores sFull (by decide)).2.2.1 rfl (by decide)

/-- Claim C10: a flush() call triggers at most one send cycle (a single
optional request is issued), that cycle removes at most batchSize events
from the queue head, and when the queue holds more than batchSize events
the events beyond the first batchSize remain queued, in order, after the
cycle completes (on failure, behind the re-queued batch). -/
theorem flush_single_bounded_cycle (s : EventQueue) (ok : Bool)
    (h1 : s.isSending = false) (h2 : s.batchSize < s.queue.length) :
    (EventQueue.flush s ok).2
      = some { project_key := s.projectKey, events := s.queue.take s.batchSize } ∧
    (s.queue.take s.batchSize).length ≤ s.batchSize ∧
    (EventQueue.flush s ok).1.queue
      = (if ok then [] else s.queue.take s.batchSize) ++ s.queue.drop s.batchSize := by
  have hne : s.queue ≠ [] := by
    intro hx
    rw [hx] at h2
    simp at h2
  have hflush : EventQueue.flush s ok = EventQueue.send s ok := by
    simp [EventQueue.flush, hne]
  rw [hflush]
  cases ok
  · rw [send_failure s h1 hne]
    refine ⟨rfl, ?_, rfl⟩
    simp [List.length_take]
  · rw [send_success s h1 hne]
    refine ⟨rfl, ?_, rfl⟩
    simp [List.length_take]

/-- Claim C10 witness: flushing three queued events with batch size two
sends the first two and leaves the third queued. -/
theorem flush_single_bounded_cycle_witness :
    (EventQueue.flush sFull true).1.queue
      = (if true then [] else sFull.queue.take sFull.batchSize)
          ++ sFull.queue.drop sFull.batchSize :=
  (flush_single_bounded_cycle sFull true rfl (by decide)).2.2

/-- Helper: on an available store with enough room, `store` appends the
whole batch after the existing data. -/
theorem store_appends_within_cap (st : StorageState) (events : List zFormsEvent)
    (hav : st.isAvailable = true) (hne : events ≠ [])
    (hcap : st.data.length + events.length ≤ MAX_STORED_EVENTS) :
    Storage.store st events = { isAvailable := true, data := st.data ++ events } := by
  have hev : ¬(events.isEmpty = true) := by simpa [List.isEmpty_iff] using hne
  simp only [Storage.store, Storage.retrieve, hav, Bool.not_true, Bool.false_or, hev,
    if_false, if_true]
  have hz : st.data.length + events.length - MAX_STORED_EVENTS = 0 := by omega
  simp [sliceLast, hz]

/-- Claim C1: when a send cycle fails, the batch spliced from the queue
head is appended to the Durable Store and reinserted at the front of the
queue in its original relative order; consequently, for any events
enqueued strictly after the failure, the next successful send cycle
delivers the entire failed batch, in order, as the leading segment of its
payload, ahead of any of the newer events (of which only a front segment
may share the request). -/
theorem send_failure_retry_priority (s : EventQueue) (newEvents : List zFormsEvent)
    (h1 : s.isSending = false) (h2 : s.queue ≠ []) :
    (EventQueue.send s false).1.storage
      = Storage.store s.storage (s.queue.take s.batchSize) ∧
    (EventQueue.send s false).1.queue
      = s.queue.take s.batchSize ++ s.queue.drop s.batchSize ∧
    (EventQueue.send s false).1.isSending = false ∧
    ∃ extra rest2,
      (EventQueue.send
        { (EventQueue.send s false).1 with
            queue := (EventQueue.send s false).1.queue ++ newEvents } true).2
        = some { project_key := s.projectKey,
                 events := s.queue.take s.batchSize ++ extra } ∧
      s.queue.drop s.batchSize ++ newEvents = extra ++ rest2 := by
  rw [send_failure s h1 h2]
  dsimp only
  refine ⟨rfl, rfl, rfl, ?_⟩
  refine ⟨(s.queue.drop s.batchSize ++ newEvents).take
            (s.batchSize - (s.queue.take s.batchSize).length),
          (s.queue.drop s.batchSize ++ newEvents).drop
            (s.batchSize - (s.queue.take s.batchSize).length),
          ?_, (List.take_append_drop _ _).symm⟩
  have hne2 : (s.queue.take s.batchSize ++ s.queue.drop s.batchSize) ++ newEvents ≠ [] := by
    rw [List.take_append_drop]
    intro hx
    exact h2 (List.append_eq_nil.mp hx).1
  rw [send_success _ rfl hne2]
  dsimp only
  congr 1
  have hlen : (s.queue.take s.batchSize).length ≤ s.batchSize := by
    rw [List.length_take]
    exact min_le_left _ _
  rw [List.append_assoc, List.take_append_eq_append_take,
    List.take_of_length_le hlen]

/-- Claim C1 witness: with one queued event, batch size two, a failed
send followed by one newer enqueue: the failed event is stored, requeued
at the head, and leads the next successful payload. -/
theorem send_failure_retry_priority_witness :
    (EventQueue.send sW false).1.queue
      = sW.queue.take sW.batchSize ++ sW.queue.drop sW.batchSize :=
  (send_failure_retry_priority sW [evB] rfl (by decide)).2.1

/-- Claim C3 counterexample: destroy does not perform a delivery attempt
of all remaining buffered events through the emergency (beacon) channel.
At a concrete state with three buffered events and batch size two,
destroy issues one normal send cycle whose payload carries only the first
two events and leaves the third in the queue, whereas an emergency
delivery attempt from the same state would submit all three events in one
payload and empty the queue. -/
theorem destroy_uses_batched_flush_cex :
    (EventQueue.destroy sFull true).2
      = some { project_key := "pk", events := [evA, evB] } ∧
    (EventQueue.destroy sFull true).1.queue = [evC] ∧
    (EventQueue.sendBeacon { sFull with sendTimer := false } true).2
      = some { project_key := "pk", events := [evA, evB, evC] } ∧
    (EventQueue.sendBeacon { sFull with sendTimer := false } true).1.queue = [] := by
  refine ⟨?_, ?_, ?_, ?_⟩ <;> decide

/-- Claim C3 (amended): destroy() cancels the repeating batch timer and
performs one best-effort send cycle of up to batchSize buffered events
through the normal asynchronous delivery channel (flush); in particular,
if M ≤ batchSize events are buffered and that send fails, the whole
M-event batch is handed to the Durable Store (and also re-queued in
memory) rather than being lost. -/
theorem destroy_amended (s : EventQueue)
    (h1 : s.isSending = false) (h2 : s.queue ≠ []) (h3 : s.queue.length ≤ s.batchSize) :
    (EventQueue.destroy s false).1.sendTimer = false ∧
    (EventQueue.destroy s false).2
      = some { project_key := s.projectKey, events := s.queue } ∧
    (EventQueue.destroy s false).1.storage = Storage.store s.storage s.queue ∧
    (s.storage.isAvailable = true →
      s.storage.data.length + s.queue.length ≤ MAX_STORED_EVENTS →
      (EventQueue.destroy s false).1.storage.data = s.storage.data ++ s.queue) := by
  have htake : s.queue.take s.batchSize = s.queue := List.take_of_length_le h3
  have hne : ¬(s.queue.isEmpty = true) := by simpa [List.isEmpty_iff] using h2
  have hdes : EventQueue.destroy s false
      = EventQueue.send { s with sendTimer := false } false := by
    simp [EventQueue.destroy, EventQueue.flush, hne]
  rw [hdes, send_failure { s with sendTimer := false } h1 h2]
  dsimp only
  rw [htake]
  refine ⟨rfl, rfl, rfl, ?_⟩
  intro hav hcap
  rw [store_appends_within_cap s.storage s.queue hav h2 hcap]

/-- Claim C3 (amended) witness: destroying with one buffered event and a
failing send persists that event. -/
theorem destroy_amended_witness :
    (EventQueue.destroy sW false).1.storage = Storage.store sW.storage sW.queue :=
  (destroy_amended sW rfl (by decide) (by decide)).2.2.1

/-- Claim C5: durability round-trip.  For any persisted sequence within
capacity, constructing a new EventQueue over the same store places
exactly those events, in their persisted order, as the entire initial
Pending Queue (hence at its head, before any live-session events, which
are appended later), and the load leaves the store empty. -/
theorem durability_round_trip (stored : List zFormsEvent) (url pk : String)
    (B I : Nat) (dbg : Bool) (hcap : stored.length ≤ MAX_STORED_EVENTS) :
    (EventQueue.construct url pk B I dbg { isAvailable := true, data := stored }).queue
      = stored ∧
    (EventQueue.construct url pk B I dbg
        { isAvailable := true, data := stored }).storage.data = [] ∧
    Storage.retrieve (EventQueue.construct url pk B I dbg
        { isAvailable := true, data := stored }).storage = [] := by
  by_cases hs : stored = []
  · subst hs
    simp [EventQueue.construct, EventQueue.loadStoredEvents, Storage.retrieve,
      Storage.clear]
  · have hlen : 0 < stored.length := List.length_pos.mpr hs
    simp [EventQueue.construct, EventQueue.loadStoredEvents, Storage.retrieve,
      Storage.clear, hlen]

/-- Claim C5 witness: two persisted events are loaded, in order, into the
queue of a freshly constructed instance and wiped from the store. -/
theorem durability_round_trip_witness :
    (EventQueue.construct "u" "pk" 10 5000 false
        { isAvailable := true, data := [evA, evB] }).queue = [evA, evB] :=
  (durability_round_trip [evA, evB] "u" "pk" 10 5000 false (by decide)).1

/-- Claim C9: a successful send cycle never touches the Durable Store, so
events persisted by an earlier failed send stay persisted when the same
events are later re-delivered successfully from the in-memory queue; only
the startup load (or an explicit clear) empties the store, so the next
EventQueue instance constructed over that store loads and can deliver
those events a second time. -/
theorem success_send_preserves_storage (s : EventQueue) (url pk : String)
    (B I : Nat)
    (h1 : s.isSending = false) (h2 : s.queue ≠ [])
    (h3 : s.queue.length ≤ s.batchSize)
    (h4 : s.storage.isAvailable = true)
    (h5 : s.storage.data.length + s.queue.length ≤ MAX_STORED_EVENTS) :
    (∀ t : EventQueue, (EventQueue.send t true).1.storage = t.storage) ∧
    (EventQueue.send (EventQueue.send s false).1 true).2
      = some { project_key := s.projectKey, events := s.queue } ∧
    (EventQueue.send (EventQueue.send s false).1 true).1.queue = [] ∧
    (EventQueue.send (EventQueue.send s false).1 true).1.storage.data
      = s.storage.data ++ s.queue ∧
    (EventQueue.construct url pk B I false
        (EventQueue.send (EventQueue.send s false).1 true).1.storage).queue
      = s.storage.data ++ s.queue ∧
    (EventQueue.construct url pk B I false
        (EventQueue.send (EventQueue.send s false).1 true).1.storage).storage.data
      = [] := by
  have frame : ∀ t : EventQueue, (EventQueue.send t true).1.storage = t.storage := by
    intro t
    by_cases hq : t.queue = []
    · rw [send_noop t true (Or.inr hq)]
    · cases hb : t.isSending
      · rw [send_success t hb hq]
      · rw [send_noop t true (Or.inl hb)]
  have htake : s.queue.take s.batchSize = s.queue := List.take_of_length_le h3
  have hdrop : s.queue.drop s.batchSize = [] := List.drop_eq_nil_of_le h3
  rw [send_failure s h1 h2]
  dsimp only
  rw [htake, hdrop, List.append_nil,
    store_appends_within_cap s.storage s.queue h4 h2 h5]
  rw [send_success { s with
        queue := s.queue,
        storage := { isAvailable := true, data := s.storage.data ++ s.queue },
        isSending := false } rfl h2]
  dsimp only
  rw [htake, hdrop]
  have hload : 0 < s.storage.data.length ∨ 0 < s.queue.length :=
    Or.inr (List.length_pos.mpr h2)
  refine ⟨frame, rfl, rfl, rfl, ?_, ?_⟩ <;>
    simp [EventQueue.construct, EventQueue.loadStoredEvents, Storage.retrieve,
      Storage.clear, hload]

/-- Claim C9 witness: after a failed then a successful send of the same
single-event batch, the event is still persisted and a new instance over
that store loads it. -/
theorem success_send_preserves_storage_witness :
    (EventQueue.construct "u" "pk" 2 5000 false
        (EventQueue.send (EventQueue.send sW false).1 true).1.storage).queue
      = [] ++ sW.queue :=
  (success_send_preserves_storage sW "u" "pk" 2 5000 rfl (by decide) (by decide)
    rfl (by decide)).2.2.2.2.1

/-- Helper: invariants of the no-failure enqueue loop.  Starting from a
state with no request in flight and fewer than batchSize queued events,
after any sequence of adds (each triggered cycle succeeding): the flag is
clear, the configuration and the storage are untouched, fewer than
batchSize events remain queued, the delivered payloads followed by the
remaining queue are exactly the old queue followed by the added events,
every delivered batch holds exactly batchSize events, and the counts
balance. -/
theorem runAdds_invariant (l : List zFormsEvent) (s : EventQueue)
    (h1 : s.isSending = false) (h2 : s.queue.length < s.batchSize) :
    (runAdds s l).1.isSending = false ∧
    (runAdds s l).1.batchSize = s.batchSize ∧
    (runAdds s l).1.projectKey = s.projectKey ∧
    (runAdds s l).1.storage = s.storage ∧
    (runAdds s l).1.queue.length < s.batchSize ∧
    ((runAdds s l).2.map EventBatch.events).flatten ++ (runAdds s l).1.queue
      = s.queue ++ l ∧
    (∀ b ∈ (runAdds s l).2, b.events.length = s.batchSize ∧
        b.project_key = s.projectKey) ∧
    (runAdds s l).2.length * s.batchSize + (runAdds s l).1.queue.length
      = s.queue.length + l.length := by
  induction l generalizing s with
  | nil =>
    refine ⟨h1, rfl, rfl, rfl, h2, by simp [runAdds], ?_, by simp [runAdds]⟩
    intro b hb
    simp [runAdds] at hb
  | cons e rest ih =>
    by_cases hc : s.batchSize ≤ s.queue.length + 1
    · -- the enqueue reaches the threshold: a full batch is sent and succeeds
      have hlen : s.queue.length + 1 = s.batchSize := Nat.le_antisymm h2 hc
      have hBpos : 0 < s.batchSize := by omega
      have hadd : EventQueue.add s e true
          = EventQueue.send { s with queue := s.queue ++ [e] } true := by
        simp only [EventQueue.add]
        rw [if_pos]
        simpa using hc
      have hs1q : ({ s with queue := s.queue ++ [e] } : EventQueue).queue ≠ [] := by
        simp
      have hqlen : (s.queue ++ [e]).length = s.batchSize := by
        simpa using hlen
      have htake : (s.queue ++ [e]).take s.batchSize = s.queue ++ [e] :=
        List.take_of_length_le (le_of_eq hqlen)
      have hdrop : (s.queue ++ [e]).drop s.batchSize = [] :=
        List.drop_eq_nil_of_le (le_of_eq hqlen)
      have hsend := send_success { s with queue := s.queue ++ [e] } h1 hs1q
      simp only [runAdds, hadd, hsend, Option.toList_some]
      rw [htake, hdrop]
      obtain ⟨i1, i2, i3, i4, i5, i6, i7, i8⟩ :=
        ih { s with queue := ([] : List zFormsEvent), isSending := false } rfl hBpos
      refine ⟨i1, i2, i3, i4, i5, ?_, ?_, ?_⟩
      · rw [List.singleton_append, List.map_cons, List.flatten_cons,
          List.append_assoc, i6]
        simp
      · intro b hb
        rw [List.singleton_append] at hb
        rcases List.mem_cons.mp hb with hb | hb
        · subst hb
          exact ⟨hqlen, rfl⟩
        · exact i7 b hb
      · rw [List.singleton_append, List.length_cons, add_one_mul]
        simp only [List.length_cons]
        simp at i8
        omega
    · -- below the threshold: the event is only appended
      have hlt : s.queue.length + 1 < s.batchSize := Nat.lt_of_not_le hc
      have hadd : EventQueue.add s e true
          = ({ s with queue := s.queue ++ [e] }, none) := by
        simp only [EventQueue.add]
        rw [if_neg]
        simpa using hc
      simp only [runAdds, hadd, Option.toList_none, List.nil_append]
      obtain ⟨i1, i2, i3, i4, i5, i6, i7, i8⟩ :=
        ih { s with queue := s.queue ++ [e] } h1 (by simpa using hlt)
      refine ⟨i1, i2, i3, i4, i5, ?_, i7, ?_⟩
      · rw [i6]
        simp
      · simp only [List.length_cons]
        simp at i8
        omega

/-- Helper: ceiling division, exact case. -/
theorem ceil_div_full (B k : Nat) (hB : 0 < B) : (B * k + B - 1) / B = k := by
  have e1 : B * k + B - 1 = B * k + (B - 1) := by
    generalize B * k = m
    omega
  rw [e1, Nat.mul_add_div hB, Nat.div_eq_of_lt (by omega), Nat.add_zero]

/-- Helper: ceiling division, remainder case. -/
theorem ceil_div_rem (B k r : Nat) (hB : 0 < B) (hr1 : 1 ≤ r) (hr2 : r < B) :
    (B * k + r + B - 1) / B = k + 1 := by
  have e1 : B * (k + 1) = B * k + B := by ring
  have e2 : B * k + r + B - 1 = B * (k + 1) + (r - 1) := by
    rw [e1]
    generalize B * k = m
    omega
  rw [e2, Nat.mul_add_div hB, Nat.div_eq_of_lt (by omega), Nat.add_zero]

/-- Claim C4: with batch size B at least 1 and no failing send attempt,
a fresh EventQueue that has N events enqueued and is then drained by one
forced cycle delivers the events to the endpoint in exactly the ceiling
of N/B batches, each batch spliced from the queue head with at most B
events, and the concatenation of the delivered batches is the original
enqueue sequence. -/
theorem no_failure_delivery (events : List zFormsEvent) (url pk : String)
    (B I : Nat) (dbg : Bool) (hB : 0 < B) :
    (deliveredBatches url pk B I dbg events).length
      = (events.length + B - 1) / B ∧
    (∀ b ∈ deliveredBatches url pk B I dbg events, b.events.length ≤ B) ∧
    ((deliveredBatches url pk B I dbg events).map EventBatch.events).flatten
      = events := by
  have hs0 : EventQueue.construct url pk B I dbg { isAvailable := true, data := [] }
      = { queue := [], storage := { isAvailable := true, data := [] },
          apiUrl := url, projectKey := pk, batchSize := B, batchInterval := I,
          sendTimer := true, isSending := false, debug := dbg } := by
    simp [EventQueue.construct, EventQueue.loadStoredEvents, Storage.retrieve]
  simp only [deliveredBatches, hs0]
  obtain ⟨i1, i2, i3, i4, i5, i6, i7, i8⟩ :=
    runAdds_invariant events
      { queue := [], storage := { isAvailable := true, data := [] },
        apiUrl := url, projectKey := pk, batchSize := B, batchInterval := I,
        sendTimer := true, isSending := false, debug := dbg } rfl hB
  set R := runAdds
      { queue := [], storage := { isAvailable := true, data := [] },
        apiUrl := url, projectKey := pk, batchSize := B, batchInterval := I,
        sendTimer := true, isSending := false, debug := dbg } events with hR
  simp only [List.length_nil, Nat.zero_add, List.nil_append] at i5 i6 i7 i8
  by_cases hq : R.1.queue = []
  · -- N is a multiple of B: the final forced cycle finds an empty queue
    have hfl : EventQueue.flush R.1 true = (R.1, none) := by
      simp [EventQueue.flush, hq]
    rw [hfl, Option.toList_none, List.append_nil]
    refine ⟨?_, ?_, ?_⟩
    · have hN : events.length = B * R.2.length := by
        rw [hq, List.length_nil, Nat.add_zero] at i8
        rw [← i8, Nat.mul_comm]
      rw [hN, ceil_div_full _ _ hB]
    · intro b hb
      exact le_of_eq (i7 b hb).1
    · rw [hq, List.append_nil] at i6
      exact i6
  · -- a final partial batch of the leftover events is flushed
    have hne : ¬(R.1.queue.isEmpty = true) := by
      simpa [List.isEmpty_iff] using hq
    have hflush : EventQueue.flush R.1 true = EventQueue.send R.1 true := by
      simp [EventQueue.flush, hne]
    have hsend := send_success R.1 i1 hq
    have htk : R.1.queue.take R.1.batchSize = R.1.queue := by
      refine List.take_of_length_le ?_
      rw [i2]
      exact le_of_lt i5
    rw [hflush, hsend]
    dsimp only
    rw [Option.toList_some, htk]
    refine ⟨?_, ?_, ?_⟩
    · rw [List.length_append, List.length_singleton]
      have hrem1 : 1 ≤ R.1.queue.length := List.length_pos.mpr hq
      have hN : events.length = B * R.2.length + R.1.queue.length := by
        rw [← i8, Nat.mul_comm]
      rw [hN, ceil_div_rem _ _ _ hB hrem1 i5]
    · intro b hb
      rcases List.mem_append.mp hb with hb | hb
      · exact le_of_eq (i7 b hb).1
      · rcases List.mem_singleton.mp hb with rfl
        exact le_of_lt i5
    · rw [List.map_append, List.flatten_append]
      simp only [List.map_cons, List.map_nil, List.flatten_cons, List.flatten_nil,
        List.append_nil]
      exact i6

/-- Claim C4 witness: three events with batch size two are delivered in
two batches whose concatenation is the original sequence. -/
theorem no_failure_delivery_witness :
    (deliveredBatches "u" "pk" 2 5000 false [evA, evB, evC]).length = 2 ∧
    ((deliveredBatches "u" "pk" 2 5000 false [evA, evB, evC]).map
        EventBatch.events).flatten = [evA, evB, evC] :=
  ⟨((no_failure_delivery [evA, evB, evC] "u" "pk" 2 5000 false (by decide)).1).trans
      (by decide),
   (no_failure_delivery [evA, evB, evC] "u" "pk" 2 5000 false (by decide)).2.2⟩
